import Mathlib

/-!
Verification of the tapeworm agent-orchestration core against its source
(src/tapeworm/src). The TypeScript classes are shallowly embedded:

* mutable object state becomes explicit state passing,
* `undefined` becomes `Option`,
* a thrown exception becomes `Except.error` (the agent's `try`/`catch`
  around tool execution becomes a `match` on that `Except`),
* the model adapter is a finite script of responses, one consumed per model
  call, so the agent loop is structural recursion on the script,
* JavaScript objects used as string-keyed maps become functions
  `String → Option Nat` updated functionally (later assignment shadows
  earlier ones, as in the source's `map[name] = i`).

Functions are embedded from the source files, keeping the source's names.
The one exception is `Message.filter`, which the source calls
(agent.ts line 148, defaultCallback) but whose definition is absent from
the source tree; it is modelled from the spec, as marked on its doc comment.
-/

namespace Tapeworm

/-- A JSON-like runtime value, standing in for TypeScript `any` payloads
(tool parameters, tool results, thrown errors).  `verr` models a JavaScript
`Error` object carrying a `name` and a `message`. -/
inductive Value where
  | vnull : Value
  | vbool : Bool → Value
  | vnum : Int → Value
  | vstr : String → Value
  | varr : List Value → Value
  | vobj : List (String × Value) → Value
  | verr : String → String → Value

mutual

/-- Embedding of `JSON.stringify` on `Value`, used by `Agent._runTool` to
serialize a caught tool failure (agent.ts line 220).  A JavaScript `Error`
stringifies to an empty object because its properties are non-enumerable. -/
def jsonStringify : Value → String
  | .vnull => "null"
  | .vbool b => cond b "true" "false"
  | .vnum n => toString n
  | .vstr s => "\"" ++ s ++ "\""
  | .varr xs => "[" ++ jsonStringifyArr xs ++ "]"
  | .vobj fs => "\x7b" ++ jsonStringifyFields fs ++ "\x7d"
  | .verr _ _ => "\x7b\x7d"

/-- Comma-separated serialization of an array's elements. -/
def jsonStringifyArr : List Value → String
  | [] => ""
  | [x] => jsonStringify x
  | x :: xs => jsonStringify x ++ "," ++ jsonStringifyArr xs

/-- Comma-separated serialization of an object's fields. -/
def jsonStringifyFields : List (String × Value) → String
  | [] => ""
  | [(k, v)] => "\"" ++ k ++ "\":" ++ jsonStringify v
  | (k, v) :: fs => "\"" ++ k ++ "\":" ++ jsonStringify v ++ "," ++ jsonStringifyFields fs

end

/-- The component-kind enum `MessageComponentType` of
src/tapeworm/src/conversation/message.ts. -/
inductive MessageComponentType where
  | content : MessageComponentType
  | thinking : MessageComponentType
  | toolcall : MessageComponentType
  | toolresult : MessageComponentType
deriving DecidableEq, Repr

/-- A `ToolCall` (src/tapeworm/src/tool/toolCall.ts): a model-requested tool
invocation.  `sequence` is `number | undefined` in the source. -/
structure ToolCall where
  sequence : Option Int
  name : String
  parameters : Value
  type : String
  id : String

/-- A `ToolResult` component (src/tapeworm/src/conversation/message.ts,
class `ToolResult`). -/
structure ToolResult where
  id : String
  toolName : String
  toolResult : Value

/-- `ToolResult.of(toolCall, toolResult)`: copies the call's `id` and `name`
(message.ts line 281). -/
def ToolResult.of (tc : ToolCall) (v : Value) : ToolResult :=
  ⟨tc.id, tc.name, v⟩

/-- The closed set of message components shipped by the source: `Content`,
`Thinking`, `ToolCall` and `ToolResult` all extend `MessageComponent` and
each overrides `getMessageComponentType` with a fixed kind. -/
inductive MessageComponent where
  | contentC : String → MessageComponent
  | thinkingC : String → MessageComponent
  | toolCallC : ToolCall → MessageComponent
  | toolResultC : ToolResult → MessageComponent

/-- The `getMessageComponentType` override of each concrete component class
(message.ts lines 178, 221, 270; toolCall.ts line 23). -/
def MessageComponent.getMessageComponentType : MessageComponent → MessageComponentType
  | .contentC _ => .content
  | .thinkingC _ => .thinking
  | .toolCallC _ => .toolcall
  | .toolResultC _ => .toolresult

/-- A `Message` (message.ts lines 9 to 31): a role and a component list.
Both fields use definite-assignment assertions in the source and are
`undefined` until set, hence the `Option`s. -/
structure Message where
  role : Option String
  content : Option (List MessageComponent)

/-- The `MessageBuilder` state (message.ts lines 39 to 41): `_role` and
`_content` both start out `undefined`. -/
structure MessageBuilder where
  roleField : Option String
  contentField : Option (List MessageComponent)

/-- `Message.builder()` returns a fresh builder with both fields unset. -/
def MessageBuilder.new : MessageBuilder := ⟨none, none⟩

/-- `MessageBuilder.role(role)` (message.ts line 48). -/
def MessageBuilder.role (b : MessageBuilder) (r : String) : MessageBuilder :=
  { b with roleField := some r }

/-- `MessageBuilder.init()` (message.ts lines 56 to 60): initialize the
content array only if it is still undefined. -/
def MessageBuilder.init (b : MessageBuilder) : MessageBuilder :=
  match b.contentField with
  | none => { b with contentField := some [] }
  | some _ => b

/-- The `this._content.push(x)` step shared by the append-style builder
methods (always preceded by `init`). -/
def MessageBuilder.pushComponent (b : MessageBuilder) (c : MessageComponent) : MessageBuilder :=
  let b2 := b.init
  { b2 with contentField := b2.contentField.map (fun l => l ++ [c]) }

/-- `MessageBuilder.content(content)` (message.ts lines 109 to 116):
silently skips an undefined argument. -/
def MessageBuilder.content (b : MessageBuilder) (t : Option String) : MessageBuilder :=
  match t with
  | none => b
  | some s => b.pushComponent (.contentC s)

/-- `MessageBuilder.thinking(thinking)` (message.ts lines 95 to 102). -/
def MessageBuilder.thinking (b : MessageBuilder) (t : Option String) : MessageBuilder :=
  match t with
  | none => b
  | some s => b.pushComponent (.thinkingC s)

/-- `MessageBuilder.toolCall(toolCall)` (message.ts lines 67 to 74). -/
def MessageBuilder.toolCall (b : MessageBuilder) (t : Option ToolCall) : MessageBuilder :=
  match t with
  | none => b
  | some tc => b.pushComponent (.toolCallC tc)

/-- `MessageBuilder.toolResult(toolResult)` (message.ts lines 81 to 88). -/
def MessageBuilder.toolResult (b : MessageBuilder) (t : Option ToolResult) : MessageBuilder :=
  match t with
  | none => b
  | some tr => b.pushComponent (.toolResultC tr)

/-- `MessageBuilder.build()` (message.ts lines 122 to 124): passes both
fields through unchanged, so a never-initialized content list stays
undefined on the built Message. -/
def MessageBuilder.build (b : MessageBuilder) : Message :=
  ⟨b.roleField, b.contentField⟩

/-- Modelled from the spec: `Message.filter(kind)` is called by
`Agent.invoke` (agent.ts line 148) and `defaultCallback` (agent.ts lines
362 to 368) but is not defined in any source file of the repository.  Per
spec section 4.1 it returns the components matching exactly the requested
kind, in original order, and the empty sequence, not an error, when none
match.  `Agent.invoke` additionally guards its result against `undefined`
(agent.ts line 152), so the model returns `none` exactly when the Message's
own component list is undefined (see `MessageBuilder.build`). -/
def Message.filter (m : Message) (k : MessageComponentType) : Option (List MessageComponent) :=
  m.content.map (fun l => l.filter (fun c => c.getMessageComponentType == k))

/-- The `as ToolCall[]` cast applied to `response.filter(ToolCall)` in
agent.ts line 150: a component of kind `toolcall` is a `ToolCall`. -/
def MessageComponent.asToolCall : MessageComponent → Option ToolCall
  | .toolCallC tc => some tc
  | _ => none

/-- The tool calls of a model response, as `Agent.invoke` extracts them. -/
def Message.toolCallsOf (m : Message) : Option (List ToolCall) :=
  (m.filter .toolcall).map (List.filterMap MessageComponent.asToolCall)

/-- The `a.sequence ?? 0` key used by the sort comparator
(agent.ts line 155). -/
def ToolCall.seqKey (tc : ToolCall) : Int := tc.sequence.getD 0

/-- The in-place `toolCalls.sort((a, b) => (a.sequence ?? 0) < (b.sequence ?? 0) ? -1 : 1)`
of agent.ts lines 154 to 156.  `Array.prototype.sort` on the JavaScript
engines is a stable merge sort; with this comparator an element is taken
from the right run only when its key is strictly smaller, i.e. `a` may stay
before `b` exactly when `seqKey a ≤ seqKey b`, which is what `mergeSort`
with that `le` computes. -/
def sortToolCalls (tcs : List ToolCall) : List ToolCall :=
  tcs.mergeSort (fun a b => decide (a.seqKey ≤ b.seqKey))

/-- A tool `Parameter` (src/tapeworm/src/tool/toolschema.ts lines 65 to 88). -/
structure Parameter where
  name : String
  description : String
  type : String
  required : Bool

/-- A `ToolSchema` (toolschema.ts lines 6 to 20). -/
structure ToolSchema where
  parameters : List Parameter
  output : String

/-- A concrete `Tool` (src/tapeworm/src/tool/tool.ts): name, description,
schema, and an `execute` that may raise (`Except.error`). -/
structure Tool where
  name : String
  description : String
  toolSchema : ToolSchema
  execute : Value → Except Value Value

/-- A compaction strategy: the `compact` capability of a
`ConversationManager` (src/tapeworm/src/conversation/conversation.ts). -/
abbrev CompactionStrategy := List Message → List Message

/-- `DefaultConversationManager.compact` returns the history unchanged
(conversation.ts lines 35 to 37). -/
def defaultCompact : CompactionStrategy := fun msgs => msgs

/-- A `Conversation` (conversation.ts lines 5 to 18): message list plus the
manager it delegates every append to. -/
structure Conversation where
  messages : List Message
  manager : CompactionStrategy

/-- `new Conversation()` starts empty with the default manager
(conversation.ts lines 9 to 12). -/
def Conversation.new : Conversation := ⟨[], defaultCompact⟩

/-- `Conversation.append(message)` (conversation.ts lines 14 to 17): push,
then synchronously replace the stored history with `manager.compact`. -/
def Conversation.append (c : Conversation) (m : Message) : Conversation :=
  { c with messages := c.manager (c.messages ++ [m]) }

/-- The tool-name index cache: a JavaScript object keyed by tool name
(agent.ts line 86), modelled as a function with `none` for absent keys. -/
abbrev ToolNameMap := String → Option Nat

/-- The loop body of `generateToolNameToIndexMap` (agent.ts lines 232 to
234): `for (let i = 0; ...) map[tools[i].getName()] = i`, a later
assignment shadowing an earlier one for a duplicate name. -/
def buildToolNameToIndexMapFrom (i : Nat) : List Tool → ToolNameMap → ToolNameMap
  | [], m => m
  | t :: ts, m =>
    buildToolNameToIndexMapFrom (i + 1) ts (fun k => if k = t.name then some i else m k)

/-- The map built by one full run of the loop, starting from the fresh empty
object at agent.ts line 231. -/
def buildToolNameToIndexMap (tools : List Tool) : ToolNameMap :=
  buildToolNameToIndexMapFrom 0 tools (fun _ => none)

/-- `Agent.generateToolNameToIndexMap()` (agent.ts lines 229 to 236): build
the map only when the cache is still undefined; an existing cache is kept
as is, whatever the current tool list. -/
def generateToolNameToIndexMap (tools : List Tool) (cache : Option ToolNameMap) : ToolNameMap :=
  match cache with
  | some m => m
  | none => buildToolNameToIndexMap tools

/-- The system-role Message seeded by `Agent.invoke` (agent.ts lines 130 to
134). -/
def systemMessage (sp : String) : Message :=
  ((MessageBuilder.new.role "system").content (some sp)).build

/-- The user-role Message appended by `Agent.invoke` (agent.ts lines 136 to
138). -/
def userMessage (q : String) : Message :=
  ((MessageBuilder.new.role "user").content (some q)).build

/-- The tool-role Message `Agent._runTool` appends for one result payload
(agent.ts lines 188 to 200, 208 to 213, 217 to 222). -/
def toolResultMessage (tc : ToolCall) (payload : Value) : Message :=
  ((MessageBuilder.new.role "tool").toolResult (some (ToolResult.of tc payload))).build

/-- The `ToolNotFoundError` payload of agent.ts lines 194 to 197. -/
def toolNotFoundValue : Value :=
  .verr "ToolNotFoundError" "Agent does not have a tool with this name."

/-- One step of `Agent._runTool(toolCall)` (agent.ts lines 183 to 224) on
the explicit state (conversation, index cache): generate the cache if
needed, look the name up, and append exactly one tool-role result Message —
a not-found error payload, the tool's returned value, or the
JSON-serialized caught failure.  A `tools[i]` access past the end of the
array yields `undefined` in JavaScript and the subsequent `tool.execute`
raises a TypeError inside the `try`, which the `catch` serializes like any
other tool failure. -/
def runToolStep (tools : List Tool) (conv : Conversation) (cache : Option ToolNameMap)
    (tc : ToolCall) : Conversation × Option ToolNameMap :=
  let m := generateToolNameToIndexMap tools cache
  match m tc.name with
  | none => (conv.append (toolResultMessage tc toolNotFoundValue), some m)
  | some i =>
    match tools[i]? with
    | none =>
      (conv.append (toolResultMessage tc
        (.vstr (jsonStringify (.verr "TypeError" "tool is undefined")))), some m)
    | some t =>
      match t.execute tc.parameters with
      | .ok v => (conv.append (toolResultMessage tc v), some m)
      | .error e =>
        (conv.append (toolResultMessage tc (.vstr (jsonStringify e))), some m)

/-- The `for (let toolCall of toolCalls) await this._runTool(toolCall)` of
agent.ts lines 158 to 160. -/
def runTools (tools : List Tool) (st : Conversation × Option ToolNameMap)
    (tcs : List ToolCall) : Conversation × Option ToolNameMap :=
  tcs.foldl (fun st tc => runToolStep tools st.1 st.2 tc) st

/-- A `ModelRequest` (src/tapeworm/src/model/model.ts lines 26 to 43), as
`Agent._runQuery` builds it: the conversation's current messages plus the
registered tools (agent.ts lines 169 to 176). -/
structure ModelRequest where
  messages : List Message
  tools : List Tool

/-- The error surfaced by one `Agent.invoke` call: a model-adapter failure
propagated uncaught through the loop, or the response script running out
(the scripted stand-in for a model with no next answer). -/
inductive InvokeError where
  | modelFailure : String → InvokeError
  | scriptExhausted : InvokeError

/-- The observable outcome of one `Agent.invoke` call: the final
conversation and index cache (mutations survive a thrown error), the
requests handed to the model adapter in order, and the propagated error,
if any. -/
structure InvokeOutcome where
  conversation : Conversation
  toolNameToIndexMap : Option ToolNameMap
  requests : List ModelRequest
  error : Option InvokeError

/-- The `while (!doneWithCalls)` loop of `Agent.invoke` (agent.ts lines 140
to 162), recursing on the model's response script: build the request from
the current history and tools, consume one scripted response, append it,
extract and stable-sort its tool calls, run them in order, and either stop
(no tool calls) or loop. -/
def runLoop (tools : List Tool) : List (Except String Message) → Conversation →
    Option ToolNameMap → List ModelRequest → InvokeOutcome
  | script, conv, cache, reqs =>
    let reqs2 := reqs ++ [⟨conv.messages, tools⟩]
    match script with
    | [] => ⟨conv, cache, reqs2, some .scriptExhausted⟩
    | .error e :: _ => ⟨conv, cache, reqs2, some (.modelFailure e)⟩
    | .ok response :: rest =>
      let conv2 := conv.append response
      match response.toolCallsOf with
      | none => ⟨conv2, cache, reqs2, none⟩
      | some [] => ⟨conv2, cache, reqs2, none⟩
      | some (tc :: tcs) =>
        let st := runTools tools (conv2, cache) (sortToolCalls (tc :: tcs))
        runLoop tools rest st.1 st.2 reqs2

/-- The `Agent` state relevant to `invoke` (agent.ts lines 42 to 115): the
model adapter itself is replaced by the response script handed to
`Agent.invoke`, and the response callback is omitted because it only prints. -/
structure Agent where
  name : String
  systemPrompt : Option String
  tools : List Tool
  conversationManager : Option CompactionStrategy
  conversation : Option Conversation
  toolNameToIndexMap : Option ToolNameMap

/-- `Agent.invoke(query)` (agent.ts lines 124 to 163): lazily create the
conversation, attach the configured manager, seed the system prompt when
one is configured, append the user query, then run the loop. -/
def Agent.invoke (a : Agent) (query : String) (script : List (Except String Message)) :
    InvokeOutcome :=
  let conv0 : Conversation :=
    match a.conversation with
    | some c => c
    | none =>
      let c1 : Conversation :=
        match a.conversationManager with
        | some mgr => { Conversation.new with manager := mgr }
        | none => Conversation.new
      match a.systemPrompt with
      | some sp => c1.append (systemMessage sp)
      | none => c1
  let conv1 := conv0.append (userMessage query)
  runLoop a.tools script conv1 a.toolNameToIndexMap []

/-- The transport status check of `OllamaModel.invoke`
(src/tapeworm/src/model/OllamaModel.ts lines 47 to 49): a non-ok response
throws an error carrying the HTTP status. -/
structure HttpResponse where
  ok : Bool
  status : Nat

/-- The `if (!response.ok) throw new Error(...)` guard of OllamaModel.ts
lines 47 to 49. -/
def ollamaStatusCheck (r : HttpResponse) : Except String HttpResponse :=
  if r.ok then .ok r else .error ("HTTP error! status: " ++ toString r.status)

/-- The `required.push(parameter.name)` accumulation of
`OllamaModel._formatTools` (OllamaModel.ts lines 89 to 99): the `required`
array is declared once, before the loop over the tools, so it collects the
required parameter names of every tool in declaration order. -/
def formatToolsRequiredNames (tools : List Tool) : List String :=
  tools.flatMap (fun t => (t.toolSchema.parameters.filter (fun p => p.required)).map (fun p => p.name))

/-- The `properties` object built for one tool by `OllamaModel._formatTools`
(OllamaModel.ts lines 93 to 100).  Note line 95 stores `parameter.name`,
not `parameter.type`, in the `type` field.  Parameter names are assumed
distinct within one tool (a duplicate key would shadow in the JavaScript
object). -/
def formatParameterObject (t : Tool) : List (String × Value) :=
  t.toolSchema.parameters.map (fun p =>
    (p.name, .vobj [("type", .vstr p.name), ("description", .vstr p.description)]))

/-- `OllamaModel._formatTools(request)` (OllamaModel.ts lines 86 to 119).
Every emitted tool object holds a reference to the single shared `required`
array, so once the loop finishes each of them exposes the accumulated list
of all tools' required parameter names; the embedding therefore gives each
tool object that final list. -/
def formatTools (tools : List Tool) : List Value :=
  let req : Value := .varr ((formatToolsRequiredNames tools).map Value.vstr)
  tools.map (fun t => .vobj [
    ("type", .vstr "function"),
    ("function", .vobj [
      ("name", .vstr t.name),
      ("description", .vstr t.description),
      ("parameters", .vobj [
        ("type", .vstr "object"),
        ("properties", .vobj (formatParameterObject t)),
        ("required", req)])])])

/-- The truncate-to-last-N compaction strategy described by the spec
(section 8): keep only the last `n` messages of the history. -/
def keepLast (n : Nat) : CompactionStrategy := fun msgs => msgs.drop (msgs.length - n)

/-- One call a client can make on a `MessageBuilder`, used to quantify over
arbitrary builder call sequences. -/
inductive BuilderOp where
  | opRole : String → BuilderOp
  | opContent : Option String → BuilderOp
  | opThinking : Option String → BuilderOp
  | opToolCall : Option ToolCall → BuilderOp
  | opToolResult : Option ToolResult → BuilderOp

/-- Apply one builder call. -/
def applyOp (b : MessageBuilder) : BuilderOp → MessageBuilder
  | .opRole r => b.role r
  | .opContent t => b.content t
  | .opThinking t => b.thinking t
  | .opToolCall t => b.toolCall t
  | .opToolResult t => b.toolResult t

/-- Apply a sequence of builder calls to a fresh builder. -/
def applyOps (b : MessageBuilder) (ops : List BuilderOp) : MessageBuilder :=
  ops.foldl applyOp b

/-- Whether a builder call is a component-appending call that actually
received a defined value. -/
def BuilderOp.isDefinedAppend : BuilderOp → Bool
  | .opRole _ => false
  | .opContent t => t.isSome
  | .opThinking t => t.isSome
  | .opToolCall t => t.isSome
  | .opToolResult t => t.isSome

/-- The result payload `Agent._runTool` ends up appending for one tool call,
as a function of the tool list and the name index in force: the branch
structure of agent.ts lines 186 to 223 (see `runToolStep`). -/
def toolOutcomeValue (tools : List Tool) (m : ToolNameMap) (tc : ToolCall) : Value :=
  match m tc.name with
  | none => toolNotFoundValue
  | some i =>
    match tools[i]? with
    | none => .vstr (jsonStringify (.verr "TypeError" "tool is undefined"))
    | some t =>
      match t.execute tc.parameters with
      | .ok v => v
      | .error e => .vstr (jsonStringify e)

/-- The assistant Message a model returns when it requests exactly one tool
call (test fixture). -/
def assistantCallMessage (tc : ToolCall) : Message :=
  ((MessageBuilder.new.role "assistant").toolCall (some tc)).build

/-- A terminal assistant Message carrying only text (test fixture). -/
def terminalMessage (t : String) : Message :=
  ((MessageBuilder.new.role "assistant").content (some t)).build

/-- A freshly built Agent, as `AgentBuilder.build` leaves it: no
conversation yet, no cached tool index (test fixture). -/
def freshAgent (sp : Option String) (tools : List Tool) : Agent :=
  ⟨"testAgent", sp, tools, none, none, none⟩

/-- An Agent holding an ongoing conversation under the default manager
(test fixture). -/
def sessionAgent (msgs : List Message) : Agent :=
  ⟨"testAgent", none, [], none, some ⟨msgs, defaultCompact⟩, none⟩

/-- A tool call with a given sequence number and correlation id, aimed at an
unregistered name (test fixture for ordering scenarios). -/
def mkSeqCall (s : Int) (idv : String) : ToolCall :=
  ⟨some s, "noSuchTool", .vnull, "function", idv⟩

/-- An echo tool (test fixture, after agent.test.ts's `EchoTool`). -/
def echoTool : Tool :=
  ⟨"echo", "echoes input", ⟨[], "returns the provided value"⟩, fun v => .ok v⟩

/-- A call to the echo tool (test fixture). -/
def callEcho : ToolCall := ⟨some 0, "echo", .vstr "ping", "function", "call1"⟩

/-- A call to a name no tool has (test fixture). -/
def callMissing : ToolCall := ⟨some 0, "nosuch", .vnull, "function", "call0"⟩

/-- First of two same-named tools (test fixture for duplicate names). -/
def dupToolA : Tool := ⟨"dup", "first of two", ⟨[], "out"⟩, fun _ => .ok (.vstr "A")⟩

/-- Second of two same-named tools (test fixture for duplicate names). -/
def dupToolB : Tool := ⟨"dup", "second of two", ⟨[], "out"⟩, fun _ => .ok (.vstr "B")⟩

/-- A call to the duplicated tool name (test fixture). -/
def dupCall : ToolCall := ⟨some 0, "dup", .vnull, "function", "dupcall"⟩

/-- The parameters and tools of the repository's own `_formatTools` unit
test (OllamaModel.ts test section, `converts tool schemas into Ollama JSON
schema objects`). -/
def paramFirst : Parameter := ⟨"first", "first param", "string", true⟩

/-- Second parameter of the `_formatTools` unit test. -/
def paramSecond : Parameter := ⟨"second", "second param", "number", false⟩

/-- Third parameter of the `_formatTools` unit test. -/
def paramThird : Parameter := ⟨"third", "third param", "string", true⟩

/-- Tool `one` of the `_formatTools` unit test. -/
def toolOne : Tool :=
  ⟨"one", "first tool", ⟨[paramFirst, paramSecond], "output"⟩, fun _ => .ok .vnull⟩

/-- Tool `two` of the `_formatTools` unit test. -/
def toolTwo : Tool :=
  ⟨"two", "second tool", ⟨[paramThird], "output"⟩, fun _ => .ok .vnull⟩

/-!  Theorems. -/

/-- Builder calls that never append a defined component leave the builder's
content field undefined. -/
theorem applyOps_contentField_none (ops : List BuilderOp)
    (h : ∀ op ∈ ops, op.isDefinedAppend = false) (b : MessageBuilder)
    (hb : b.contentField = none) : (applyOps b ops).contentField = none := by
  induction ops generalizing b with
  | nil => simpa [applyOps] using hb
  | cons op ops ih =>
    have hop := h op (List.mem_cons_self _ _)
    have hrest : ∀ o ∈ ops, o.isDefinedAppend = false :=
      fun o ho => h o (List.mem_cons_of_mem _ ho)
    have hstep : (applyOp b op).contentField = none := by
      cases op with
      | opRole r => simpa [applyOp, MessageBuilder.role] using hb
      | opContent t =>
        cases t with
        | none => simpa [applyOp, MessageBuilder.content] using hb
        | some s => simp [BuilderOp.isDefinedAppend] at hop
      | opThinking t =>
        cases t with
        | none => simpa [applyOp, MessageBuilder.thinking] using hb
        | some s => simp [BuilderOp.isDefinedAppend] at hop
      | opToolCall t =>
        cases t with
        | none => simpa [applyOp, MessageBuilder.toolCall] using hb
        | some s => simp [BuilderOp.isDefinedAppend] at hop
      | opToolResult t =>
        cases t with
        | none => simpa [applyOp, MessageBuilder.toolResult] using hb
        | some s => simp [BuilderOp.isDefinedAppend] at hop
    have : applyOps b (op :: ops) = applyOps (applyOp b op) ops := by
      simp [applyOps]
    rw [this]
    exact ih hrest _ hstep

/-- Claim C9: a Message built by any sequence of builder calls in which no
component-appending call receives a defined value (only roles set, or
`content`/`thinking`/`toolCall`/`toolResult` called with `undefined`) has an
undefined component list rather than an empty one, so `filter` on such a
Message yields no component sequence at all. -/
theorem builder_no_defined_append_content_undefined (ops : List BuilderOp)
    (h : ∀ op ∈ ops, op.isDefinedAppend = false) :
    ((applyOps MessageBuilder.new ops).build.content = none) ∧
    (∀ k, (applyOps MessageBuilder.new ops).build.filter k = none) := by
  have hc : (applyOps MessageBuilder.new ops).contentField = none :=
    applyOps_contentField_none ops h MessageBuilder.new rfl
  refine ⟨by simpa [MessageBuilder.build] using hc, fun k => ?_⟩
  simp [Message.filter, MessageBuilder.build, hc]

/-- Witness for C9: building with only a role and an undefined thinking
argument yields an undefined component list and an undefined filter result. -/
theorem builder_no_defined_append_content_undefined_witness :
    ((applyOps MessageBuilder.new [.opRole "user", .opThinking none]).build.content = none) ∧
    ((applyOps MessageBuilder.new [.opRole "user", .opThinking none]).build.filter
      .content = none) := by
  have h := builder_no_defined_append_content_undefined
    [.opRole "user", .opThinking none]
    (by
      intro op hop
      rcases List.mem_cons.mp hop with rfl | hop2
      · rfl
      · rcases List.mem_cons.mp hop2 with rfl | h3
        · rfl
        · cases h3)
  exact ⟨h.1, h.2 .content⟩

/-- Claim C5: on every Message whose component list is defined, `filter`
returns exactly the components of the requested kind, in their original
order (a sublist containing precisely the matching components), the empty
list rather than an error when none match, and it is idempotent: filtering
an already-filtered component list changes nothing.  The embedding is pure,
so the Message itself is never mutated. -/
theorem message_filter_exact_idempotent (m : Message) (l : List MessageComponent)
    (k : MessageComponentType) (h : m.content = some l) :
    ∃ r, m.filter k = some r ∧
      r = l.filter (fun c => c.getMessageComponentType == k) ∧
      r.Sublist l ∧
      (∀ c ∈ r, c.getMessageComponentType = k) ∧
      (∀ c ∈ l, c.getMessageComponentType = k → c ∈ r) ∧
      (Message.mk m.role (some r)).filter k = some r := by
  refine ⟨l.filter (fun c => c.getMessageComponentType == k),
    by simp [Message.filter, h], rfl, List.filter_sublist _, ?_, ?_, ?_⟩
  · intro c hc
    have := (List.mem_filter.mp hc).2
    simpa using this
  · intro c hc hk
    exact List.mem_filter.mpr ⟨hc, by simp [hk]⟩
  · simp [Message.filter, List.filter_filter]

/-- Witness for C5: filtering a concrete two-component Message for content
components. -/
theorem message_filter_exact_idempotent_witness :
    ∃ r, (Message.mk (some "assistant")
        (some [.contentC "x", .thinkingC "t"])).filter .content = some r ∧
      r = [MessageComponent.contentC "x", .thinkingC "t"].filter
        (fun c => c.getMessageComponentType == .content) ∧
      r.Sublist [.contentC "x", .thinkingC "t"] ∧
      (∀ c ∈ r, c.getMessageComponentType = .content) ∧
      (∀ c ∈ [MessageComponent.contentC "x", .thinkingC "t"],
        c.getMessageComponentType = .content → c ∈ r) ∧
      (Message.mk (Message.mk (some "assistant")
          (some [.contentC "x", .thinkingC "t"])).role (some r)).filter .content = some r :=
  message_filter_exact_idempotent
    (Message.mk (some "assistant") (some [.contentC "x", .thinkingC "t"]))
    [.contentC "x", .thinkingC "t"] .content rfl

/-- The comparator key order is transitive. -/
theorem seqKeyLe_trans : ∀ a b c : ToolCall,
    decide (a.seqKey ≤ b.seqKey) → decide (b.seqKey ≤ c.seqKey) →
    decide (a.seqKey ≤ c.seqKey) := by
  intro a b c hab hbc
  simp only [decide_eq_true_eq] at hab hbc ⊢
  omega

/-- The comparator key order is total. -/
theorem seqKeyLe_total : ∀ a b : ToolCall,
    decide (a.seqKey ≤ b.seqKey) || decide (b.seqKey ≤ a.seqKey) := by
  intro a b
  simp only [Bool.or_eq_true, decide_eq_true_eq]
  omega

/-- Running one tool call on a default-manager conversation appends exactly
the result message determined by `toolOutcomeValue`, and fixes the index
cache. -/
theorem runToolStep_defaultCompact (tools : List Tool) (msgs : List Message)
    (cache : Option ToolNameMap) (tc : ToolCall) :
    runToolStep tools ⟨msgs, defaultCompact⟩ cache tc =
      (⟨msgs ++ [toolResultMessage tc
          (toolOutcomeValue tools (generateToolNameToIndexMap tools cache) tc)],
        defaultCompact⟩,
       some (generateToolNameToIndexMap tools cache)) := by
  cases h1 : generateToolNameToIndexMap tools cache tc.name with
  | none => simp [runToolStep, toolOutcomeValue, h1, Conversation.append, defaultCompact]
  | some i =>
    cases h2 : tools[i]? with
    | none => simp [runToolStep, toolOutcomeValue, h1, h2, Conversation.append, defaultCompact]
    | some t =>
      cases h3 : t.execute tc.parameters with
      | ok v => simp [runToolStep, toolOutcomeValue, h1, h2, h3, Conversation.append, defaultCompact]
      | error e => simp [runToolStep, toolOutcomeValue, h1, h2, h3, Conversation.append, defaultCompact]

/-- Running a batch of tool calls on a default-manager conversation appends
one result message per call, in batch order. -/
theorem runTools_defaultCompact (tools : List Tool) (M : ToolNameMap)
    (tcs : List ToolCall) (msgs : List Message) :
    runTools tools (⟨msgs, defaultCompact⟩, some M) tcs =
      (⟨msgs ++ tcs.map (fun tc => toolResultMessage tc (toolOutcomeValue tools M tc)),
        defaultCompact⟩, some M) := by
  induction tcs generalizing msgs with
  | nil => simp [runTools]
  | cons tc tcs ih =>
    have hstep := runToolStep_defaultCompact tools msgs (some M) tc
    have hgen : generateToolNameToIndexMap tools (some M) = M := rfl
    rw [hgen] at hstep
    have : runTools tools (⟨msgs, defaultCompact⟩, some M) (tc :: tcs) =
        runTools tools (runToolStep tools ⟨msgs, defaultCompact⟩ (some M) tc) tcs := by
      simp [runTools]
    rw [this, hstep]
    rw [ih (msgs ++ [toolResultMessage tc (toolOutcomeValue tools M tc)])]
    simp

/-- Claim C3: the tool-call batch of one assistant turn is stable-sorted by
sequence number ascending — the sorted batch is a permutation of the
emitted one, its keys are ascending, and any two calls emitted in order
whose keys allow it (in particular ties) keep their relative order — and
running the sorted batch appends its result messages to the conversation in
exactly that sorted order.  The concrete batch with sequence numbers
[2,0,1] is settled in the witness. -/
theorem toolCalls_sorted_stable (l : List ToolCall) :
    (sortToolCalls l).Perm l ∧
    (sortToolCalls l).Pairwise (fun a b => a.seqKey ≤ b.seqKey) ∧
    (∀ a b : ToolCall, a.seqKey ≤ b.seqKey → [a, b].Sublist l →
      [a, b].Sublist (sortToolCalls l)) ∧
    (∀ (tools : List Tool) (M : ToolNameMap) (msgs : List Message),
      (runTools tools (⟨msgs, defaultCompact⟩, some M) (sortToolCalls l)).1.messages =
        msgs ++ (sortToolCalls l).map
          (fun tc => toolResultMessage tc (toolOutcomeValue tools M tc))) := by
  refine ⟨List.mergeSort_perm l _, ?_, ?_, ?_⟩
  · have hs := @List.sorted_mergeSort ToolCall (fun a b => decide (a.seqKey ≤ b.seqKey))
      seqKeyLe_trans seqKeyLe_total l
    exact hs.imp (fun h => by simpa using h)
  · intro a b hab hsub
    exact List.pair_sublist_mergeSort seqKeyLe_trans seqKeyLe_total
      (by simpa using hab) hsub
  · intro tools M msgs
    rw [runTools_defaultCompact]

/-- Witness for C3: a batch emitted with sequence numbers [2,0,1] sorts to
[0,1,2] and its three result messages land in the conversation in that
order. -/
theorem toolCalls_sorted_stable_witness :
    sortToolCalls [mkSeqCall 2 "a", mkSeqCall 0 "b", mkSeqCall 1 "c"] =
      [mkSeqCall 0 "b", mkSeqCall 1 "c", mkSeqCall 2 "a"] ∧
    (runTools [] (⟨[], defaultCompact⟩, some (fun _ => none))
        (sortToolCalls [mkSeqCall 2 "a", mkSeqCall 0 "b", mkSeqCall 1 "c"])).1.messages =
      [toolResultMessage (mkSeqCall 0 "b") toolNotFoundValue,
       toolResultMessage (mkSeqCall 1 "c") toolNotFoundValue,
       toolResultMessage (mkSeqCall 2 "a") toolNotFoundValue] := by
  have hsorted : sortToolCalls [mkSeqCall 2 "a", mkSeqCall 0 "b", mkSeqCall 1 "c"] =
      [mkSeqCall 0 "b", mkSeqCall 1 "c", mkSeqCall 2 "a"] := by
    simp [sortToolCalls, List.mergeSort, mkSeqCall, ToolCall.seqKey]
  have h := (toolCalls_sorted_stable
    [mkSeqCall 2 "a", mkSeqCall 0 "b", mkSeqCall 1 "c"]).2.2.2 [] (fun _ => none) []
  refine ⟨hsorted, ?_⟩
  rw [h, hsorted]
  simp [toolOutcomeValue]

/-- A name absent from a tool segment is left to the accumulated map. -/
theorem buildToolNameToIndexMapFrom_notMem (ts : List Tool) (n : String)
    (h : ∀ t ∈ ts, t.name ≠ n) (i : Nat) (m : ToolNameMap) :
    buildToolNameToIndexMapFrom i ts m n = m n := by
  induction ts generalizing i m with
  | nil => rfl
  | cons t ts ih =>
    have ht : t.name ≠ n := h t (List.mem_cons_self _ _)
    have hrest : ∀ u ∈ ts, u.name ≠ n := fun u hu => h u (List.mem_cons_of_mem _ hu)
    rw [buildToolNameToIndexMapFrom, ih hrest]
    have hne : n ≠ t.name := fun he => ht he.symm
    simp [hne]

/-- The index loop binds a name to the position of its last occurrence: a
later `map[name] = i` assignment shadows any earlier one. -/
theorem buildToolNameToIndexMapFrom_last (ts : List Tool) (j : Nat) (tj : Tool)
    (n : String) (hj : ts[j]? = some tj) (hn : tj.name = n)
    (hlast : ∀ k tk, ts[k]? = some tk → j < k → tk.name ≠ n) (i : Nat) (m : ToolNameMap) :
    buildToolNameToIndexMapFrom i ts m n = some (i + j) := by
  induction ts generalizing i m j with
  | nil => simp at hj
  | cons t ts ih =>
    cases j with
    | zero =>
      have ht : t = tj := by simpa using hj
      subst ht
      have hnone : ∀ u ∈ ts, u.name ≠ n := by
        intro u hu
        obtain ⟨k, hk⟩ := List.mem_iff_getElem?.mp hu
        exact hlast (k + 1) u (by simpa using hk) (Nat.succ_pos k)
      rw [buildToolNameToIndexMapFrom, buildToolNameToIndexMapFrom_notMem ts n hnone]
      simp [hn]
    | succ j2 =>
      have hj2 : ts[j2]? = some tj := by simpa using hj
      have hlast2 : ∀ k tk, ts[k]? = some tk → j2 < k → tk.name ≠ n := by
        intro k tk hk hlt
        exact hlast (k + 1) tk (by simpa using hk) (by omega)
      rw [buildToolNameToIndexMapFrom, ih j2 hj2 hlast2 (i + 1)]
      congr 1
      omega

/-- Claim C10: with duplicate tool names, the lazily built name-to-index map
binds the name to the position of the last such tool in the list, so a tool
call with that name resolves to — and its appended result is produced by —
the last-registered tool of that name. -/
theorem duplicate_tool_names_last_wins (tools : List Tool) (j : Nat) (tj : Tool)
    (tc : ToolCall) (msgs : List Message)
    (hj : tools[j]? = some tj) (hn : tj.name = tc.name)
    (hlast : ∀ k tk, tools[k]? = some tk → j < k → tk.name ≠ tc.name) :
    buildToolNameToIndexMap tools tc.name = some j ∧
    runToolStep tools ⟨msgs, defaultCompact⟩ none tc =
      (⟨msgs ++ [toolResultMessage tc
          (toolOutcomeValue tools (buildToolNameToIndexMap tools) tc)],
        defaultCompact⟩, some (buildToolNameToIndexMap tools)) ∧
    (∀ v, tj.execute tc.parameters = .ok v →
      toolOutcomeValue tools (buildToolNameToIndexMap tools) tc = v) := by
  have hmap : buildToolNameToIndexMap tools tc.name = some j := by
    have := buildToolNameToIndexMapFrom_last tools j tj tc.name hj hn hlast 0 (fun _ => none)
    simpa [buildToolNameToIndexMap] using this
  refine ⟨hmap, ?_, ?_⟩
  · have := runToolStep_defaultCompact tools msgs none tc
    simpa [generateToolNameToIndexMap] using this
  · intro v hv
    simp [toolOutcomeValue, hmap, hj, hv]

/-- Witness for C10: two tools both named `dup`; the call resolves to the
second one and its result value `B` is the one recorded. -/
theorem duplicate_tool_names_last_wins_witness :
    buildToolNameToIndexMap [dupToolA, dupToolB] dupCall.name = some 1 ∧
    runToolStep [dupToolA, dupToolB] ⟨[], defaultCompact⟩ none dupCall =
      (⟨[] ++ [toolResultMessage dupCall
          (toolOutcomeValue [dupToolA, dupToolB]
            (buildToolNameToIndexMap [dupToolA, dupToolB]) dupCall)],
        defaultCompact⟩, some (buildToolNameToIndexMap [dupToolA, dupToolB])) ∧
    (∀ v, dupToolB.execute dupCall.parameters = .ok v →
      toolOutcomeValue [dupToolA, dupToolB]
        (buildToolNameToIndexMap [dupToolA, dupToolB]) dupCall = v) :=
  duplicate_tool_names_last_wins [dupToolA, dupToolB] 1 dupToolB dupCall []
    rfl rfl
    (by
      intro k tk hk hlt
      match k, hlt with
      | k + 2, _ => simp at hk)

/-- Claim C7 is violated by the source (recorded as a code bug): the cached
name-to-index map is built once and `generateToolNameToIndexMap` never
regenerates it, so after the tool list is mutated the stale map is still
used.  Concretely: an agent first runs a tool call with an empty tool list
(building an empty cache); the `echo` tool is then added to the list; a
subsequent call to `echo` is answered with a tool-not-found result even
though the tool is registered, whereas a regenerated map would resolve it
at index 0. -/
theorem toolIndexCache_stale_after_mutation :
    ((runToolStep [echoTool]
        (runToolStep [] ⟨[], defaultCompact⟩ none callMissing).1
        (runToolStep [] ⟨[], defaultCompact⟩ none callMissing).2
        callEcho).1.messages.getLast? =
      some (toolResultMessage callEcho toolNotFoundValue)) ∧
    ([echoTool].map Tool.name = ["echo"]) ∧
    (buildToolNameToIndexMap [echoTool] "echo" = some 0) := by
  refine ⟨?_, rfl, ?_⟩
  · simp [runToolStep, generateToolNameToIndexMap, buildToolNameToIndexMap,
      buildToolNameToIndexMapFrom, callMissing, callEcho, Conversation.append,
      defaultCompact]
  · simp [buildToolNameToIndexMap, buildToolNameToIndexMapFrom, echoTool]

/-- Claim C8 is violated by the source (recorded as a code bug):
`_formatTools` declares its `required` array once, outside the loop over
the tools, so the emitted `required` list accumulates the required
parameter names of every tool — on the repository's own unit-test input it
is `["first", "third"]` for both tools, where the test expects `["first"]`
and `["third"]` — and line 95 stores each parameter's *name*, not its type
tag, in the `type` field of `properties`. -/
theorem formatTools_required_accumulates :
    (formatToolsRequiredNames [toolOne, toolTwo] = ["first", "third"] ∧
      ["first", "third"] ≠ ["first"]) ∧
    (formatParameterObject toolOne =
      [("first", .vobj [("type", .vstr "first"), ("description", .vstr "first param")]),
       ("second", .vobj [("type", .vstr "second"), ("description", .vstr "second param")])] ∧
      paramFirst.type = "string" ∧ ("first" : String) ≠ "string") := by
  refine ⟨⟨?_, by decide⟩, ⟨?_, rfl, by decide⟩⟩
  · simp [formatToolsRequiredNames, toolOne, toolTwo, paramFirst, paramSecond, paramThird]
  · simp [formatParameterObject, toolOne, paramFirst, paramSecond]

/-- A Message none of whose components is a tool call yields no tool-call
batch: `filter` gives `undefined` (content list undefined) or the empty
list. -/
theorem toolCallsOf_of_no_toolcall (m : Message)
    (hterm : ∀ c ∈ m.content.getD [], c.getMessageComponentType ≠ .toolcall) :
    m.toolCallsOf = none ∨ m.toolCallsOf = some [] := by
  cases hm : m.content with
  | none => left; simp [Message.toolCallsOf, Message.filter, hm]
  | some l =>
    right
    have hl : l.filter (fun c => c.getMessageComponentType == MessageComponentType.toolcall) = [] := by
      rw [List.filter_eq_nil_iff]
      intro c hc
      simpa using hterm c (by simpa [hm] using hc)
    simp [Message.toolCallsOf, Message.filter, hm, hl]

/-- A single terminal response ends the loop at once: the response is
appended, exactly one request was issued, and no error is raised. -/
theorem runLoop_terminal (tools : List Tool) (m : Message)
    (hm : m.toolCallsOf = none ∨ m.toolCallsOf = some [])
    (conv : Conversation) (cache : Option ToolNameMap) (reqs : List ModelRequest) :
    runLoop tools [.ok m] conv cache reqs =
      ⟨conv.append m, cache, reqs ++ [⟨conv.messages, tools⟩], none⟩ := by
  rcases hm with hm | hm <;> simp [runLoop, hm]

/-- The role of the seeded system Message. -/
theorem systemMessage_role (sp : String) : (systemMessage sp).role = some "system" := rfl

/-- The role of the appended user Message. -/
theorem userMessage_role (q : String) : (userMessage q).role = some "user" := rfl

/-- Claim C1: a fresh Agent with a system prompt and zero tools, run against
a model that answers with a single assistant Message containing no tool
calls, terminates after exactly one model call; the Conversation then holds
exactly the three messages [system, user, assistant] in that order, and the
single model request carried exactly the [system, user] prefix and an empty
tool list. -/
theorem invoke_zero_tools_terminal (a : Agent) (sp q : String) (m : Message)
    (hconv : a.conversation = none) (hmgr : a.conversationManager = none)
    (hsp : a.systemPrompt = some sp) (htools : a.tools = [])
    (hrole : m.role = some "assistant")
    (hterm : ∀ c ∈ m.content.getD [], c.getMessageComponentType ≠ .toolcall) :
    (a.invoke q [.ok m]).error = none ∧
    (a.invoke q [.ok m]).requests = [⟨[systemMessage sp, userMessage q], []⟩] ∧
    (a.invoke q [.ok m]).conversation.messages = [systemMessage sp, userMessage q, m] ∧
    (a.invoke q [.ok m]).conversation.messages.map Message.role =
      [some "system", some "user", some "assistant"] := by
  have hrun : a.invoke q [.ok m] =
      runLoop [] [.ok m] ⟨[systemMessage sp, userMessage q], defaultCompact⟩
        a.toolNameToIndexMap [] := by
    simp [Agent.invoke, hconv, hmgr, hsp, htools, Conversation.new,
      Conversation.append, defaultCompact]
  rw [hrun, runLoop_terminal [] m (toolCallsOf_of_no_toolcall m hterm)]
  refine ⟨rfl, by simp, by simp [Conversation.append, defaultCompact], ?_⟩
  simp [Conversation.append, defaultCompact, systemMessage_role, userMessage_role, hrole]

/-- Witness for C1: the concrete agent of agent.test.ts's first test, with
system prompt, query `hello`, and a text-only assistant reply. -/
theorem invoke_zero_tools_terminal_witness :
    ((freshAgent (some "testSystemPrompt") []).invoke "hello"
        [.ok (terminalMessage "hi there")]).error = none ∧
    ((freshAgent (some "testSystemPrompt") []).invoke "hello"
        [.ok (terminalMessage "hi there")]).requests =
      [⟨[systemMessage "testSystemPrompt", userMessage "hello"], []⟩] ∧
    ((freshAgent (some "testSystemPrompt") []).invoke "hello"
        [.ok (terminalMessage "hi there")]).conversation.messages =
      [systemMessage "testSystemPrompt", userMessage "hello", terminalMessage "hi there"] ∧
    ((freshAgent (some "testSystemPrompt") []).invoke "hello"
        [.ok (terminalMessage "hi there")]).conversation.messages.map Message.role =
      [some "system", some "user", some "assistant"] :=
  invoke_zero_tools_terminal (freshAgent (some "testSystemPrompt") [])
    "testSystemPrompt" "hello" (terminalMessage "hi there")
    rfl rfl rfl rfl rfl
    (by
      intro c hc
      rcases List.mem_singleton.mp hc with rfl
      simp [MessageComponent.getMessageComponentType])

/-- A turn that requests one tool call, followed by a terminal turn, runs to
completion: the tool step never throws (it is a total state update), a
second model call is made, and no error reaches the outcome. -/
theorem runLoop_two_turns (tools : List Tool) (tc : ToolCall) (done : Message)
    (hdone : done.toolCallsOf = none ∨ done.toolCallsOf = some [])
    (conv : Conversation) (cache : Option ToolNameMap) (reqs : List ModelRequest) :
    (runLoop tools [.ok (assistantCallMessage tc), .ok done] conv cache reqs).error = none ∧
    (runLoop tools [.ok (assistantCallMessage tc), .ok done] conv cache reqs).requests.length =
      reqs.length + 2 := by
  have hcalls : (assistantCallMessage tc).toolCallsOf = some [tc] := rfl
  have hsingle : sortToolCalls [tc] = [tc] := by simp [sortToolCalls]
  rcases hdone with hm | hm <;>
    (constructor <;> simp [runLoop, hcalls, hsingle, hm])

/-- Claim C2: per-tool-call error isolation.  A call naming an unregistered
tool makes the Agent append a tool-role Message whose ToolCallResult
carries the tool-not-found error, correlated to the call's id; a call whose
tool raises makes it append a tool-role Message whose ToolCallResult
carries the JSON-serialized failure; the appended ToolCallResult always
copies the request's id and name; and an invoke whose model turns succeed
finishes with no error and proceeds to another model turn after the tool
batch, whatever each tool call did. -/
theorem runTool_error_isolation :
    (∀ (tools : List Tool) (conv : Conversation) (cache : Option ToolNameMap) (tc : ToolCall),
      generateToolNameToIndexMap tools cache tc.name = none →
      runToolStep tools conv cache tc =
        (conv.append (toolResultMessage tc toolNotFoundValue),
         some (generateToolNameToIndexMap tools cache))) ∧
    (∀ (tools : List Tool) (conv : Conversation) (cache : Option ToolNameMap)
        (tc : ToolCall) (i : Nat) (t : Tool) (e : Value),
      generateToolNameToIndexMap tools cache tc.name = some i →
      tools[i]? = some t → t.execute tc.parameters = .error e →
      runToolStep tools conv cache tc =
        (conv.append (toolResultMessage tc (.vstr (jsonStringify e))),
         some (generateToolNameToIndexMap tools cache))) ∧
    (∀ (tc : ToolCall) (v : Value),
      toolResultMessage tc v =
        ⟨some "tool", some [.toolResultC ⟨tc.id, tc.name, v⟩]⟩) ∧
    (∀ (a : Agent) (q : String) (tc : ToolCall) (done : Message),
      (∀ c ∈ done.content.getD [], c.getMessageComponentType ≠ .toolcall) →
      (a.invoke q [.ok (assistantCallMessage tc), .ok done]).error = none ∧
      (a.invoke q [.ok (assistantCallMessage tc), .ok done]).requests.length = 2) := by
  refine ⟨?_, ?_, fun tc v => rfl, ?_⟩
  · intro tools conv cache tc h
    simp [runToolStep, h]
  · intro tools conv cache tc i t e h1 h2 h3
    simp [runToolStep, h1, h2, h3]
  · intro a q tc done hdone
    have h2 := runLoop_two_turns a.tools tc done (toolCallsOf_of_no_toolcall done hdone)
    constructor
    · simp only [Agent.invoke]
      exact (h2 _ a.toolNameToIndexMap []).1
    · simp only [Agent.invoke]
      simpa using (h2 _ a.toolNameToIndexMap []).2

/-- Witness for C2: a fresh toolless agent asked to run the unregistered
call `nosuch`, then handed a terminal reply; plus the two local `_runTool`
facts at concrete inputs (the `nosuch` lookup misses, and a tool that
always raises gets its failure serialized). -/
theorem runTool_error_isolation_witness :
    (runToolStep [] ⟨[], defaultCompact⟩ none callMissing =
      (Conversation.mk [] defaultCompact |>.append
        (toolResultMessage callMissing toolNotFoundValue),
       some (generateToolNameToIndexMap [] none))) ∧
    (toolResultMessage callMissing toolNotFoundValue =
      ⟨some "tool", some [.toolResultC ⟨"call0", "nosuch", toolNotFoundValue⟩]⟩) ∧
    (((freshAgent none []).invoke "run tool"
        [.ok (assistantCallMessage callMissing), .ok (terminalMessage "done")]).error = none ∧
     ((freshAgent none []).invoke "run tool"
        [.ok (assistantCallMessage callMissing), .ok (terminalMessage "done")]).requests.length = 2) := by
  refine ⟨?_, ?_, ?_⟩
  · exact runTool_error_isolation.1 [] ⟨[], defaultCompact⟩ none callMissing rfl
  · exact runTool_error_isolation.2.2.1 callMissing toolNotFoundValue
  · exact runTool_error_isolation.2.2.2 (freshAgent none []) "run tool" callMissing
      (terminalMessage "done")
      (by
        intro c hc
        rcases List.mem_singleton.mp hc with rfl
        simp [MessageComponent.getMessageComponentType])

/-- Claim C4: every failing model-adapter invocation — in the Ollama
adapter, every non-2xx response throws an error carrying the HTTP status —
propagates out of `Agent.invoke` to the caller, and the Conversation
retains every Message appended before the failure, with nothing rolled
back.  The second conjunct states this at the loop level for an arbitrary
accumulated state (conversation, cache, prior requests), so it covers a
failure on any model call of any invoke, however many assistant and tool
messages earlier turns of that invoke appended: the loop returns the
accumulated conversation unchanged together with the error.  The remaining
conjuncts instantiate it through `Agent.invoke` on a fresh agent with a
system prompt: a first-call failure leaves [system, user], and a
second-call failure after a tool turn leaves the system, user, assistant
tool-call and tool-result messages all retained. -/
theorem model_failure_propagates_retains (tools : List Tool) (a : Agent)
    (sp q e : String) (st : Nat) (tc : ToolCall)
    (rest : List (Except String Message)) (conv : Conversation)
    (cache : Option ToolNameMap) (reqs : List ModelRequest)
    (hconv : a.conversation = none) (hmgr : a.conversationManager = none)
    (hsp : a.systemPrompt = some sp)
    (he : ollamaStatusCheck ⟨false, st⟩ = .error e) :
    e = "HTTP error! status: " ++ toString st ∧
    runLoop tools (.error e :: rest) conv cache reqs =
      ⟨conv, cache, reqs ++ [⟨conv.messages, tools⟩], some (.modelFailure e)⟩ ∧
    ((a.invoke q [.error e]).error = some (.modelFailure e) ∧
     (a.invoke q [.error e]).conversation.messages =
       [systemMessage sp, userMessage q]) ∧
    ((a.invoke q [.ok (assistantCallMessage tc), .error e]).error =
       some (.modelFailure e) ∧
     (a.invoke q [.ok (assistantCallMessage tc), .error e]).conversation.messages =
       [systemMessage sp, userMessage q, assistantCallMessage tc,
        toolResultMessage tc (toolOutcomeValue a.tools
          (generateToolNameToIndexMap a.tools a.toolNameToIndexMap) tc)]) := by
  have hestr : e = "HTTP error! status: " ++ toString st := by
    have := he.symm
    simpa [ollamaStatusCheck] using this
  refine ⟨hestr, by simp [runLoop], ?_, ?_⟩
  · constructor <;>
      simp [Agent.invoke, hconv, hmgr, hsp, runLoop, Conversation.new,
        Conversation.append, defaultCompact]
  · have hrun : a.invoke q [.ok (assistantCallMessage tc), .error e] =
        runLoop a.tools [.ok (assistantCallMessage tc), .error e]
          ⟨[systemMessage sp, userMessage q], defaultCompact⟩ a.toolNameToIndexMap [] := by
      simp [Agent.invoke, hconv, hmgr, hsp, Conversation.new,
        Conversation.append, defaultCompact]
    have hcalls : (assistantCallMessage tc).toolCallsOf = some [tc] := rfl
    have hsingle : sortToolCalls [tc] = [tc] := by simp [sortToolCalls]
    have hstep := runToolStep_defaultCompact a.tools
      [systemMessage sp, userMessage q, assistantCallMessage tc] a.toolNameToIndexMap tc
    rw [hrun]
    constructor <;>
      simp [runLoop, hcalls, hsingle, runTools, Conversation.append,
        defaultCompact, hstep]

/-- Witness for C4: an HTTP 500 failure; the fresh agent retains [system,
user] on a first-call failure, and retains the assistant tool-call and
tool-result messages as well when the failure comes on the second call. -/
theorem model_failure_propagates_retains_witness :
    ("HTTP error! status: " ++ toString 500 : String) =
      "HTTP error! status: " ++ toString 500 ∧
    runLoop [] [.error ("HTTP error! status: " ++ toString 500)]
        ⟨[], defaultCompact⟩ none [] =
      ⟨⟨[], defaultCompact⟩, none, [] ++ [⟨[], []⟩],
       some (.modelFailure ("HTTP error! status: " ++ toString 500))⟩ ∧
    (((freshAgent (some "testSystemPrompt") []).invoke "q"
        [.error ("HTTP error! status: " ++ toString 500)]).error =
       some (.modelFailure ("HTTP error! status: " ++ toString 500)) ∧
     ((freshAgent (some "testSystemPrompt") []).invoke "q"
        [.error ("HTTP error! status: " ++ toString 500)]).conversation.messages =
       [systemMessage "testSystemPrompt", userMessage "q"]) ∧
    (((freshAgent (some "testSystemPrompt") []).invoke "q"
        [.ok (assistantCallMessage callMissing),
         .error ("HTTP error! status: " ++ toString 500)]).error =
       some (.modelFailure ("HTTP error! status: " ++ toString 500)) ∧
     ((freshAgent (some "testSystemPrompt") []).invoke "q"
        [.ok (assistantCallMessage callMissing),
         .error ("HTTP error! status: " ++ toString 500)]).conversation.messages =
       [systemMessage "testSystemPrompt", userMessage "q",
        assistantCallMessage callMissing,
        toolResultMessage callMissing (toolOutcomeValue
          (freshAgent (some "testSystemPrompt") []).tools
          (generateToolNameToIndexMap (freshAgent (some "testSystemPrompt") []).tools
            (freshAgent (some "testSystemPrompt") []).toolNameToIndexMap)
          callMissing)]) :=
  model_failure_propagates_retains [] (freshAgent (some "testSystemPrompt") [])
    "testSystemPrompt" "q" ("HTTP error! status: " ++ toString 500) 500 callMissing
    [] ⟨[], defaultCompact⟩ none [] rfl rfl rfl rfl

/-- Truncation to the last `n` messages never keeps more than `n`. -/
theorem keepLast_length (n : Nat) (l : List Message) : (keepLast n l).length ≤ n := by
  simp only [keepLast, List.length_drop]
  omega

/-- An append on a truncating conversation preserves the manager and keeps
the history within the bound. -/
theorem append_keepLast (n : Nat) (c : Conversation) (m : Message)
    (h : c.manager = keepLast n) :
    (c.append m).manager = keepLast n ∧ (c.append m).messages.length ≤ n := by
  refine ⟨by simpa [Conversation.append] using h, ?_⟩
  simp only [Conversation.append, h]
  exact keepLast_length n _

/-- One tool step on a truncating conversation preserves the manager and the
bound. -/
theorem runToolStep_keepLast (n : Nat) (tools : List Tool) (c : Conversation)
    (cache : Option ToolNameMap) (tc : ToolCall) (h : c.manager = keepLast n) :
    (runToolStep tools c cache tc).1.manager = keepLast n ∧
    (runToolStep tools c cache tc).1.messages.length ≤ n := by
  cases h1 : generateToolNameToIndexMap tools cache tc.name with
  | none => simpa [runToolStep, h1] using append_keepLast n c _ h
  | some i =>
    cases h2 : tools[i]? with
    | none => simpa [runToolStep, h1, h2] using append_keepLast n c _ h
    | some t =>
      cases h3 : t.execute tc.parameters with
      | ok v => simpa [runToolStep, h1, h2, h3] using append_keepLast n c _ h
      | error e => simpa [runToolStep, h1, h2, h3] using append_keepLast n c _ h

/-- A whole tool batch on a truncating conversation preserves the manager
and the bound. -/
theorem runTools_keepLast (n : Nat) (tools : List Tool) (tcs : List ToolCall)
    (st : Conversation × Option ToolNameMap)
    (h : st.1.manager = keepLast n) (hlen : st.1.messages.length ≤ n) :
    (runTools tools st tcs).1.manager = keepLast n ∧
    (runTools tools st tcs).1.messages.length ≤ n := by
  induction tcs generalizing st with
  | nil => exact ⟨by simpa [runTools] using h, by simpa [runTools] using hlen⟩
  | cons tc tcs ih =>
    have hstep := runToolStep_keepLast n tools st.1 st.2 tc h
    have heq : runTools tools st (tc :: tcs) =
        runTools tools (runToolStep tools st.1 st.2 tc) tcs := by
      simp [runTools]
    rw [heq]
    exact ih _ hstep.1 hstep.2

/-- Every request the loop issues over a truncating conversation carries at
most `n` messages. -/
theorem runLoop_requests_bounded (n : Nat) (tools : List Tool)
    (script : List (Except String Message)) :
    ∀ (conv : Conversation) (cache : Option ToolNameMap) (reqs : List ModelRequest),
    conv.manager = keepLast n → conv.messages.length ≤ n →
    (∀ r ∈ reqs, r.messages.length ≤ n) →
    ∀ r ∈ (runLoop tools script conv cache reqs).requests, r.messages.length ≤ n := by
  induction script with
  | nil =>
    intro conv cache reqs hmgr hlen hreqs r hr
    rw [runLoop] at hr
    rcases List.mem_append.mp hr with h | h
    · exact hreqs r h
    · rcases List.mem_singleton.mp h with rfl
      simpa using hlen
  | cons head rest ih =>
    intro conv cache reqs hmgr hlen hreqs r hr
    cases head with
    | error e =>
      rw [runLoop] at hr
      rcases List.mem_append.mp hr with h | h
      · exact hreqs r h
      · rcases List.mem_singleton.mp h with rfl
        simpa using hlen
    | ok response =>
      have hconv2 := append_keepLast n conv response hmgr
      cases hto : response.toolCallsOf with
      | none =>
        simp only [runLoop, hto] at hr
        rcases List.mem_append.mp hr with h | h
        · exact hreqs r h
        · rcases List.mem_singleton.mp h with rfl
          simpa using hlen
      | some tcs =>
        cases tcs with
        | nil =>
          simp only [runLoop, hto] at hr
          rcases List.mem_append.mp hr with h | h
          · exact hreqs r h
          · rcases List.mem_singleton.mp h with rfl
            simpa using hlen
        | cons tc tcs2 =>
          simp only [runLoop, hto] at hr
          have hst := runTools_keepLast n tools (sortToolCalls (tc :: tcs2))
            (conv.append response, cache) hconv2.1 hconv2.2
          refine ih _ _ _ hst.1 hst.2 ?_ r hr
          intro r2 hr2
          rcases List.mem_append.mp hr2 with h | h
          · exact hreqs r2 h
          · rcases List.mem_singleton.mp h with rfl
            simpa using hlen

/-- Claim C6: `Conversation.append` pushes and then synchronously replaces
the stored history with the strategy's compaction of it, so with the
truncate-to-last-N strategy configured on a fresh Agent, every model
request issued during any invoke — however long the script, however many
tool turns — carries at most N messages. -/
theorem append_compacts_requests_bounded (n : Nat) :
    (∀ (c : Conversation) (m : Message), c.manager = keepLast n →
      ((c.append m).messages = keepLast n (c.messages ++ [m]) ∧
       (c.append m).messages.length ≤ n)) ∧
    (∀ (a : Agent) (q : String) (script : List (Except String Message)),
      a.conversation = none → a.conversationManager = some (keepLast n) →
      ∀ r ∈ (a.invoke q script).requests, r.messages.length ≤ n) := by
  constructor
  · intro c m h
    exact ⟨by simp [Conversation.append, h], (append_keepLast n c m h).2⟩
  · intro a q script hconv hmgr
    cases hsp : a.systemPrompt with
    | none =>
      simp only [Agent.invoke, hconv, hmgr, hsp]
      refine runLoop_requests_bounded n a.tools script _ a.toolNameToIndexMap [] rfl ?_ (by simp)
      exact (append_keepLast n ⟨[], keepLast n⟩ _ rfl).2
    | some sp =>
      simp only [Agent.invoke, hconv, hmgr, hsp]
      refine runLoop_requests_bounded n a.tools script _ a.toolNameToIndexMap [] rfl ?_ (by simp)
      exact (append_keepLast n _ _ rfl).2

/-- Witness for C6: on a keep-last-2 conversation an append stays within the
bound, and the single request of a one-turn invoke under the keep-last-2
strategy carries at most 2 messages. -/
theorem append_compacts_requests_bounded_witness :
    (((Conversation.mk [] (keepLast 2)).append (userMessage "hi")).messages =
        keepLast 2 ([] ++ [userMessage "hi"]) ∧
      ((Conversation.mk [] (keepLast 2)).append (userMessage "hi")).messages.length ≤ 2) ∧
    ((ModelRequest.mk [userMessage "hi"] []).messages.length ≤ 2) := by
  refine ⟨(append_compacts_requests_bounded 2).1 ⟨[], keepLast 2⟩ (userMessage "hi") rfl, ?_⟩
  refine (append_compacts_requests_bounded 2).2
    ⟨"testAgent", none, [], some (keepLast 2), none, none⟩ "hi"
    [.ok (terminalMessage "x")] rfl rfl ⟨[userMessage "hi"], []⟩ ?_
  simp [Agent.invoke, runLoop, Conversation.new, Conversation.append, keepLast,
    terminalMessage, Message.toolCallsOf, Message.filter, MessageBuilder.new,
    MessageBuilder.role, MessageBuilder.content, MessageBuilder.pushComponent,
    MessageBuilder.init, MessageBuilder.build, MessageComponent.getMessageComponentType]

end Tapeworm
